import Mathlib

/-!
Verification of the Gemini Slack bot's history and memory pipeline.

The definitions below are a shallow embedding of the Python sources
slack_bot.py and flat_memory_manager.py: chat-history persistence
(load_chat_history / save_chat_history and the session-file key mapping),
the flat memory manager (_load_memory, _append_memory_item, add_memory,
get_memory, get_context_for_user, extract_important_info,
summarize_session), the context assembly of
generate_response_with_history, and the function-call processing loop
_process_function_calls.  File systems are modeled as total maps from a
file key to a file state (absent, unreadable, or holding a decoded
record); external model calls are an oracle parameter; Python string
operations (startswith, in, split, strip, lower, join) are re-implemented
over character lists so that every definition evaluates inside the kernel.
-/

/-- MAX_HISTORY_SIZE from slack_bot.py line 49. -/
def MAX_HISTORY_SIZE : Nat := 50

/-- A chat turn as stored in a session record (slack_bot.py lines 564-586).
role and content are always present; user_id, user_name and channel_id are
present only on channel messages (absent keys are `none`). -/
structure Turn where
  role : String
  content : String
  timestamp : String
  user_id : Option String
  user_name : Option String
  channel_id : Option String
deriving Repr, DecidableEq

/-- Python pre.isPrefixOf-style s.startswith(pre), over character lists. -/
def chStartsWith (pre s : List Char) : Bool := pre.isPrefixOf s

/-- Python containment test (sep in s) over character lists. -/
def containsSeq (sep : List Char) : List Char → Bool
  | [] => sep.isEmpty
  | c :: rest => sep.isPrefixOf (c :: rest) || containsSeq sep rest

/-- The prefix of a character list before the first occurrence of sep:
Python s.split(sep)[0]. -/
def takeUntilSep (sep : List Char) : List Char → List Char
  | [] => []
  | c :: rest => if sep.isPrefixOf (c :: rest) then [] else c :: takeUntilSep sep rest

/-- The session-file key a conversation key maps to (slack_bot.py lines
402-407 and 425-430): a key of the form workspace...\x7bid\x7d_channel_... is stored
under its workspace id; any other key has its own file. -/
def sessionFileKey (k : String) : String :=
  if chStartsWith "workspace".data k.data && containsSeq "_channel_".data k.data then
    String.mk (takeUntilSep "_channel_".data k.data)
  else k

/-- The durable state of one stored file: missing, unreadable (the JSON
decode raises), or holding a decoded list of turns. -/
inductive FileState where
  | absent
  | corrupt
  | ok (turns : List Turn)
deriving Repr, DecidableEq

/-- The sessions directory, one file state per session-file key. -/
def SessionsDir := String → FileState

/-- A directory with no session files. -/
def emptySessions : SessionsDir := fun _ => FileState.absent

/-- SlackBotManager.load_chat_history (slack_bot.py lines 399-415): returns
the stored turns; a missing file or a load error yields the empty list (the
error is logged at line 414 and never propagated). -/
def loadChatHistory (fs : SessionsDir) (k : String) : List Turn :=
  match fs (sessionFileKey k) with
  | FileState.ok h => h
  | _ => []

/-- The truncation in save_chat_history (slack_bot.py lines 419-422):
Python chat_history[-MAX_HISTORY_SIZE * 2:] applied only when the list is
longer than MAX_HISTORY_SIZE * 2. -/
def trimHistory (h : List Turn) : List Turn :=
  if h.length > MAX_HISTORY_SIZE * 2 then h.drop (h.length - MAX_HISTORY_SIZE * 2) else h

/-- SlackBotManager.save_chat_history (slack_bot.py lines 417-436):
truncate the record and write it to the mapped session file. -/
def saveChatHistory (fs : SessionsDir) (k : String) (h : List Turn) : SessionsDir :=
  fun k2 => if k2 = sessionFileKey k then FileState.ok (trimHistory h) else fs k2

/-- The append path of generate_response_with_history (slack_bot.py lines
457 and 554-589): load the record, append the new turns, save it back. -/
def appendChatHistory (fs : SessionsDir) (k : String) (ts : List Turn) : SessionsDir :=
  saveChatHistory fs k (loadChatHistory fs k ++ ts)

/-- The suffix of the last n elements, Python l[-n:] (the whole list when
n exceeds the length). -/
def takeLast {α : Type} (n : Nat) (l : List α) : List α := l.drop (l.length - n)

/-- One request's history side effects in generate_response_with_history
(slack_bot.py lines 454-601): load the record for the conversation key,
append the user turn and the bot turn, save, and report whether the
summarization check at line 592 (len(chat_history) % 10 == 0, evaluated on
the untrimmed in-memory list) invokes summarize_session. -/
def handleRequest (fs : SessionsDir) (k : String) (u b : Turn) : SessionsDir × Bool :=
  let h := loadChatHistory fs k ++ [u, b]
  (saveChatHistory fs k h, h.length % 10 == 0)

/-- n consecutive requests against one conversation key starting from an
empty sessions directory, counting summarize_session invocations. -/
def runRequests (k : String) (u b : Turn) : Nat → SessionsDir × Nat
  | 0 => (emptySessions, 0)
  | n + 1 =>
    let p := runRequests k u b n
    let q := handleRequest p.1 k u b
    (q.1, p.2 + if q.2 then 1 else 0)

/-- The durable state of the workspace memory file. -/
inductive MemFile where
  | absent
  | corrupt
  | ok (items : List String)
deriving Repr, DecidableEq

/-- FlatMemoryManager state: the in-memory fact list self.memory and the
backing memory file. -/
structure MemState where
  mem : List String
  file : MemFile
deriving Repr, DecidableEq

/-- FlatMemoryManager._load_memory (flat_memory_manager.py lines 38-54): a
missing or unreadable file yields the default empty record; the error is
logged and never propagated. -/
def loadMemory : MemFile → List String
  | MemFile.ok items => items
  | _ => []

/-- FlatMemoryManager._append_memory_item (flat_memory_manager.py lines
64-108).  The initial read (lines 72-77) returns early when the item is
already in the file; on a corrupt file that read raises and the outer
handler (line 107) makes the whole call a no-op; on a missing file the
check is skipped but the open in mode r+ at line 86 raises after the
in-memory list was already updated, so only the in-memory list changes. -/
def appendMemoryItem (s : MemState) (f : String) : MemState :=
  match s.file with
  | MemFile.corrupt => s
  | MemFile.ok items =>
    if f ∈ items then s
    else
      MemState.mk (if f ∈ s.mem then s.mem else s.mem ++ [f]) (MemFile.ok (items ++ [f]))
  | MemFile.absent =>
      MemState.mk (if f ∈ s.mem then s.mem else s.mem ++ [f]) MemFile.absent

/-- FlatMemoryManager.add_memory (flat_memory_manager.py lines 110-117). -/
def addMemory (s : MemState) (f : String) : MemState := appendMemoryItem s f

/-- FlatMemoryManager.get_memory (flat_memory_manager.py lines 119-125). -/
def getMemory (s : MemState) : List String := s.mem

/-- Python sep.join(items). -/
def pyJoin (sep : String) : List String → String
  | [] => ""
  | [x] => x
  | x :: y :: rest => x ++ sep ++ pyJoin sep (y :: rest)

/-- FlatMemoryManager.get_context_for_user (flat_memory_manager.py lines
219-234): the stored facts, truncated to the first 20 when there are more,
joined with a newline; the user_id argument is never consulted. -/
def getContextForUser (s : MemState) (user_id : Option String) : String :=
  let memory_items := getMemory s
  let limited := if memory_items.length > 20 then memory_items.take 20 else memory_items
  pyJoin "\n" limited

/-- Number of lines of a string: one more than its newline count. -/
def countLines (s : String) : Nat := s.data.count '\n' + 1

/-- Python truthiness of an optional string field: a missing key or an
empty string is falsy. -/
def truthyOpt : Option String → Bool
  | some s => !(s == "")
  | none => false

/-- The role mapping at slack_bot.py line 502. -/
def formatRole (r : String) : String := if r == "user" then "user" else "model"

/-- Per-entry content formatting of the context assembler (slack_bot.py
lines 494-504): in a channel conversation a stored user turn that carries a
sender name is prefixed with that name and a colon. -/
def formatEntryContent (isChannel : Bool) (e : Turn) : String :=
  if isChannel && truthyOpt e.user_name && (e.role == "user") then
    e.user_name.getD "" ++ ": " ++ e.content
  else e.content

/-- The history portion of the assembled context (slack_bot.py lines
493-504): the last 20 stored turns, each as a role and a formatted
content. -/
def formattedHistory (isChannel : Bool) (history : List Turn) : List (String × String) :=
  (takeLast 20 history).map (fun e => (formatRole e.role, formatEntryContent isChannel e))

/-- Formatting of the current inbound message (slack_bot.py lines
506-509): prefixed with the sender name only for channel conversations
with a truthy user_name. -/
def currentQuery (isChannel : Bool) (userName : Option String) (q : String) : String :=
  if isChannel && truthyOpt userName then userName.getD "" ++ ": " ++ q else q

/-- A declared function call inside a model response part; args holds the
query argument when the payload carries one (extraction at slack_bot.py
lines 650-660 falls back to the original query otherwise). -/
structure FunctionCall where
  name : String
  args : Option String
deriving Repr, DecidableEq

/-- One part of a model response: a text part or a function-call part. -/
inductive RespPart where
  | text (s : String)
  | functionCall (fc : FunctionCall)
deriving Repr, DecidableEq

/-- One response candidate; a missing content attribute and candidates
with no parts are both modeled as the empty part list. -/
structure Candidate where
  parts : List RespPart
deriving Repr, DecidableEq

/-- A model response as inspected by _process_function_calls. -/
structure Response where
  candidates : List Candidate
deriving Repr, DecidableEq

/-- The text carried by a part (empty for a function-call part, so that
accumulating it is a no-op, as at slack_bot.py lines 638-640). -/
def partText : RespPart → String
  | RespPart.text s => s
  | RespPart.functionCall _ => ""

/-- Whether a part is a function-call part. -/
def isFunctionCallPart : RespPart → Bool
  | RespPart.functionCall _ => true
  | _ => false

/-- Whether a part is a function call named search_web. -/
def isSearchCallPart : RespPart → Bool
  | RespPart.functionCall fc => fc.name == "search_web"
  | _ => false

/-- The parts of the first candidate (the only one the loop inspects). -/
def partsOf (r : Response) : List RespPart :=
  match r.candidates with
  | [] => []
  | c :: _ => c.parts

/-- The response.text attribute read at slack_bot.py line 615: it yields
the joined text parts, and the access fails (an exception caught by the
except clause at line 616) when the response has no candidates, no parts,
or contains a function-call part. -/
def responseText (r : Response) : Option String :=
  match r.candidates with
  | [] => none
  | c :: _ =>
    if c.parts.isEmpty || c.parts.any isFunctionCallPart then none
    else some (c.parts.foldl (fun acc p => acc ++ partText p) "")

/-- The outcome of _process_function_calls on one response: a returned
answer text, entry into the search_web execution branch with the extracted
query (slack_bot.py lines 647-730), the fixed unsupported-tool fallback
(line 738), or the fixed no-response text (lines 623, 627, 631, 745). -/
inductive ProcResult where
  | answer (s : String)
  | searchWeb (query : String)
  | unsupportedToolFallback
  | noResponse
deriving Repr, DecidableEq

/-- The fixed fallback text returned at slack_bot.py line 738 when a
function call was requested but never executed. -/
def unsupportedToolText : String :=
  "I need to search for more information to answer your question accurately, but I\x27m currently unable to perform web searches."

/-- The fixed text returned when nothing could be extracted. -/
def noResponseText : String := "I couldn\x27t generate a response. Please try again."

/-- The string each outcome hands back to the caller; the search branch
continues with further external model calls, so it renders to none. -/
def renderResult : ProcResult → Option String
  | ProcResult.answer s => some s
  | ProcResult.searchWeb _ => none
  | ProcResult.unsupportedToolFallback => some unsupportedToolText
  | ProcResult.noResponse => some noResponseText

/-- The part loop of _process_function_calls (slack_bot.py lines 637-745):
text parts accumulate; the first search_web call enters the search branch
with its extracted query; any other function call only sets the
has_function_call flag; after the loop the flag forces the fixed fallback,
otherwise accumulated text is returned, otherwise the no-response text. -/
def partsLoop (originalQuery : String) : List RespPart → String → Bool → ProcResult
  | [], acc, hasFC =>
    if hasFC then ProcResult.unsupportedToolFallback
    else if acc ≠ "" then ProcResult.answer acc
    else ProcResult.noResponse
  | RespPart.text s :: rest, acc, hasFC => partsLoop originalQuery rest (acc ++ s) hasFC
  | RespPart.functionCall fc :: rest, acc, hasFC =>
    if fc.name == "search_web" then ProcResult.searchWeb (fc.args.getD originalQuery)
    else partsLoop originalQuery rest acc true

/-- SlackBotManager._process_function_calls (slack_bot.py lines 611-749):
return response.text when its access succeeds; otherwise guard the
candidate and part shape and run the part loop.  Every failure path
returns a fixed text instead of raising. -/
def processFunctionCalls (originalQuery : String) (r : Response) : ProcResult :=
  match responseText r with
  | some t => ProcResult.answer t
  | none =>
    match r.candidates with
    | [] => ProcResult.noResponse
    | c :: _ =>
      if c.parts.isEmpty then ProcResult.noResponse
      else partsLoop originalQuery c.parts "" false

/-- A response carrying a tool call named get_weather next to a search_web
call, used against claim C7. -/
def mixedToolResponse : Response :=
  Response.mk [Candidate.mk
    [RespPart.functionCall (FunctionCall.mk "get_weather" none),
     RespPart.functionCall (FunctionCall.mk "search_web" (some "seoul weather"))]]

/-- A single stored fact consisting of 20 newline characters, used against
claim C4. -/
def newlineFact : String := String.mk (List.replicate 20 '\n')

/-- Python whitespace for str.strip (ASCII whitespace characters). -/
def pySpace (c : Char) : Bool :=
  c == ' ' || c == '\t' || c == '\n' || c == '\r' || c == '\x0b' || c == '\x0c'

/-- Python s.strip(): drop leading and trailing whitespace. -/
def pyStrip (s : String) : String :=
  String.mk (((s.data.dropWhile pySpace).reverse.dropWhile pySpace).reverse)

/-- Python s.lower(), character-wise. -/
def pyLower (s : String) : String := String.mk (s.data.map Char.toLower)

/-- Python s.split over the newline separator, over character lists. -/
def splitNL : List Char → List (List Char)
  | [] => [[]]
  | c :: rest =>
    if c == '\n' then [] :: splitNL rest
    else
      match splitNL rest with
      | [] => [[c]]
      | l :: ls => (c :: l) :: ls

/-- A chat message dict as consumed by extract_important_info: the get
calls on role, content and user_name (absent keys are `none`). -/
structure Message where
  role : Option String
  content : Option String
  user_name : Option String
deriving Repr, DecidableEq

/-- The extraction prompt built at flat_memory_manager.py lines 150-159
(the indentation of the Python triple-quoted literal is kept). -/
def memoryPrompt (userName content : String) : String :=
  "Below is a message from a user. If this message contains any important information worth remembering long-term, extract it.\n            Important information could be about people, organizations, preferences, facts, or any other significant information.\n            If there\x27s nothing worth remembering, return NOTHING.\n            If there is something worth remembering, write each memory as a complete, natural language sentence. Be concise but informative.\n            Return ONLY the memories, one per line, with no prefixes or categorization.\n            \n            USER MESSAGE:\n            " ++ userName ++ ": " ++ content ++ "\n            \n            IMPORTANT INFORMATION (or NOTHING if none):"

/-- FlatMemoryManager.extract_important_info (flat_memory_manager.py lines
127-173).  modelAvailable is self.memory_model being set; oracle models
generate_content, with none for a falsy or failed response.  The returned
flag records whether the model was invoked. -/
def extractImportantInfo (modelAvailable : Bool) (oracle : String → Option String)
    (message : Message) : List String × Bool :=
  if !modelAvailable || !(message.role == some "user") then ([], false)
  else
    let content := message.content.getD ""
    let userName := message.user_name.getD "User"
    if (pyStrip content).length < 10 then ([], false)
    else
      match oracle (memoryPrompt userName content) with
      | none => ([], true)
      | some raw =>
        let text := pyStrip raw
        if pyLower text == "nothing"
            || containsSeq "nothing worth remembering".data (pyLower text).data then
          ([], true)
        else
          (((splitNL text.data).map String.mk).filterMap
            (fun m => if pyStrip m ≠ "" ∧ pyLower m ≠ "nothing" then some (pyStrip m) else none),
           true)

/-- The user-info pass of summarize_session (flat_memory_manager.py lines
190-200): for each user turn with truthy user_id and user_name whose id
was not seen before, remember a fact of the form User id: name. -/
def userFactsPass : MemState → List String → List Turn → MemState
  | st, _, [] => st
  | st, seen, t :: rest =>
    if t.role == "user" && truthyOpt t.user_id && truthyOpt t.user_name then
      if t.user_id.getD "" ∈ seen then userFactsPass st seen rest
      else
        userFactsPass
          (addMemory st ("User " ++ t.user_id.getD "" ++ ": " ++ t.user_name.getD ""))
          (t.user_id.getD "" :: seen) rest
    else userFactsPass st seen rest

/-- The consolidated transcript of flat_memory_manager.py lines 202-206:
each line is the entry's user_name (Bot when the key is absent), a colon,
and the content. -/
def historyText (history : List Turn) : String :=
  pyJoin "\n" (history.map (fun e => (e.user_name.getD "Bot") ++ ": " ++ e.content))

/-- The observable outcome of summarize_session: the memories field of the
returned summary, the memory state after all add_memory calls, and whether
the extraction model was invoked. -/
structure SummaryResult where
  memories : List String
  state : MemState
  modelInvoked : Bool
deriving Repr, DecidableEq

/-- FlatMemoryManager.summarize_session (flat_memory_manager.py lines
175-217): run the user-info pass, build the transcript, and when it strips
to a nonempty text run extract_important_info on the synthetic user
message and add every extracted memory. -/
def summarizeSession (modelAvailable : Bool) (oracle : String → Option String)
    (st : MemState) (chat_history : List Turn) : SummaryResult :=
  let st1 := userFactsPass st [] chat_history
  let htext := historyText chat_history
  if !(pyStrip htext == "") then
    let res := extractImportantInfo modelAvailable oracle (Message.mk (some "user") (some htext) (some "History"))
    SummaryResult.mk res.1 (res.1.foldl addMemory st1) res.2
  else
    SummaryResult.mk [] st1 false

/-! Helper lemmas about the history store. -/

theorem loadChatHistory_saveChatHistory (fs : SessionsDir) (k : String) (h : List Turn) :
    loadChatHistory (saveChatHistory fs k h) k = trimHistory h := by
  simp [loadChatHistory, saveChatHistory]

theorem trimHistory_eq_takeLast (h : List Turn) :
    trimHistory h = takeLast (MAX_HISTORY_SIZE * 2) h := by
  unfold trimHistory takeLast
  by_cases hl : h.length > MAX_HISTORY_SIZE * 2
  · rw [if_pos hl]
  · rw [if_neg hl]
    have h0 : h.length - MAX_HISTORY_SIZE * 2 = 0 := by omega
    rw [h0, List.drop_zero]

theorem takeLast_length_le {α : Type} (n : Nat) (l : List α) : (takeLast n l).length ≤ n := by
  simp only [takeLast, List.length_drop]
  omega

theorem takeLast_suffix {α : Type} (n : Nat) (l : List α) : takeLast n l <:+ l :=
  List.drop_suffix _ _

/-- C1: for every conversation key and every appended turn sequence, load
after append returns exactly the suffix of the most recent
MAX_HISTORY_SIZE * 2 turns of the full appended sequence (the whole
sequence when it is shorter), so at most MAX_HISTORY_SIZE * 2 turns, in
the original insertion order. -/
theorem load_after_append_trims (fs : SessionsDir) (k : String) (ts : List Turn) :
    loadChatHistory (appendChatHistory fs k ts) k
        = takeLast (MAX_HISTORY_SIZE * 2) (loadChatHistory fs k ++ ts)
      ∧ (loadChatHistory (appendChatHistory fs k ts) k).length ≤ MAX_HISTORY_SIZE * 2
      ∧ loadChatHistory (appendChatHistory fs k ts) k <:+ loadChatHistory fs k ++ ts := by
  have h1 : loadChatHistory (appendChatHistory fs k ts) k
      = takeLast (MAX_HISTORY_SIZE * 2) (loadChatHistory fs k ++ ts) := by
    unfold appendChatHistory
    rw [loadChatHistory_saveChatHistory, trimHistory_eq_takeLast]
  refine ⟨h1, ?_, ?_⟩
  · rw [h1]; exact takeLast_length_le _ _
  · rw [h1]; exact takeLast_suffix _ _

/-- C8: saving a record of at most MAX_HISTORY_SIZE * 2 turns and loading
it immediately returns the identical record: all text content, including
arbitrary non-ASCII strings, round-trips verbatim (the UTF-8 JSON layer
with ensure_ascii disabled is modeled as value-faithful storage). -/
theorem save_load_roundtrip (fs : SessionsDir) (k : String) (h : List Turn)
    (hlen : h.length ≤ MAX_HISTORY_SIZE * 2) :
    loadChatHistory (saveChatHistory fs k h) k = h := by
  rw [loadChatHistory_saveChatHistory]
  unfold trimHistory
  rw [if_neg (by omega)]

/-- C8 witness: a concrete one-turn record with Korean, emoji and accented
content round-trips unchanged. -/
theorem save_load_roundtrip_witness :
    loadChatHistory
        (saveChatHistory emptySessions "workspace1_channel_C9"
          [Turn.mk "user" "안녕하세요 👋 ¡hola!" "2025-05-01T12:00:00" none none none])
        "workspace1_channel_C9"
      = [Turn.mk "user" "안녕하세요 👋 ¡hola!" "2025-05-01T12:00:00" none none none] :=
  save_load_roundtrip emptySessions "workspace1_channel_C9"
    [Turn.mk "user" "안녕하세요 👋 ¡hola!" "2025-05-01T12:00:00" none none none] (by decide)

/-- C6: loading a missing or unreadable session record yields the empty
turn sequence, and loading a missing or unreadable memory record yields
the empty fact list; both loaders are total functions, so the underlying
read error never reaches the caller. -/
theorem load_missing_or_corrupt_empty :
    (∀ (fs : SessionsDir) (k : String),
        fs (sessionFileKey k) = FileState.absent ∨ fs (sessionFileKey k) = FileState.corrupt →
          loadChatHistory fs k = [])
      ∧ (∀ mf : MemFile, mf = MemFile.absent ∨ mf = MemFile.corrupt → loadMemory mf = []) := by
  constructor
  · intro fs k hk
    rcases hk with hk | hk <;> simp [loadChatHistory, hk]
  · intro mf hm
    rcases hm with hm | hm <;> simp [loadMemory, hm]

/-- C6 witness: a fresh sessions directory and a corrupt memory file both
load as empty. -/
theorem load_missing_or_corrupt_empty_witness :
    loadChatHistory emptySessions "workspace1_channel_C042" = []
      ∧ loadMemory MemFile.corrupt = [] :=
  ⟨load_missing_or_corrupt_empty.1 emptySessions "workspace1_channel_C042" (Or.inl rfl),
   load_missing_or_corrupt_empty.2 MemFile.corrupt (Or.inr rfl)⟩

theorem trimHistory_length (h : List Turn) :
    (trimHistory h).length = min h.length (MAX_HISTORY_SIZE * 2) := by
  unfold trimHistory
  by_cases hl : h.length > MAX_HISTORY_SIZE * 2
  · rw [if_pos hl]
    simp only [List.length_drop]
    omega
  · rw [if_neg hl]
    omega

theorem runRequests_spec (k : String) (u b : Turn) (n : Nat) :
    (loadChatHistory (runRequests k u b n).1 k).length = min (2 * n) (MAX_HISTORY_SIZE * 2)
      ∧ (runRequests k u b n).2 = min (n / 5) 10 := by
  induction n with
  | zero => simp [runRequests, emptySessions, loadChatHistory]
  | succ n ih =>
    obtain ⟨hlen, hcnt⟩ := ih
    have happ : (loadChatHistory (runRequests k u b n).1 k ++ [u, b]).length
        = min (2 * n) (MAX_HISTORY_SIZE * 2) + 2 := by
      simp [List.length_append, hlen]
    constructor
    · show (loadChatHistory
          (saveChatHistory (runRequests k u b n).1 k
            (loadChatHistory (runRequests k u b n).1 k ++ [u, b])) k).length = _
      rw [loadChatHistory_saveChatHistory, trimHistory_length, happ]
      simp only [MAX_HISTORY_SIZE]
      omega
    · show (runRequests k u b n).2
          + (if ((loadChatHistory (runRequests k u b n).1 k ++ [u, b]).length % 10 == 0)
              then 1 else 0) = _
      rw [hcnt, happ]
      simp only [MAX_HISTORY_SIZE, Nat.beq_eq_true_eq]
      by_cases h10 : (min (2 * n) (50 * 2) + 2) % 10 = 0
      · rw [if_pos (by simpa using h10)]
        omega
      · rw [if_neg (by simpa using h10)]
        omega

/-- C3: the summarization check of generate_response_with_history fires
exactly when the in-memory history length right after the append is a
multiple of 10, and over any run from an empty store the number of
summarize_session invocations after n requests is min (n / 5) 10 — one per
threshold crossing, none at non-multiples, and none once the stored record
has saturated at the MAX_HISTORY_SIZE * 2 cap (where the in-memory length
stays at 102). -/
theorem summarize_every_ten (fs : SessionsDir) (k : String) (u b : Turn) (n : Nat) :
    ((handleRequest fs k u b).2 = true ↔ ((loadChatHistory fs k).length + 2) % 10 = 0)
      ∧ (runRequests k u b n).2 = min (n / 5) 10 := by
  constructor
  · show ((loadChatHistory fs k ++ [u, b]).length % 10 == 0) = true ↔ _
    simp [List.length_append]
  · exact (runRequests_spec k u b n).2

/-- C2 counterexample: the claim quantifies over every memory state, but
from the reachable state whose backing file is unreadable (so the record
loaded as empty), _append_memory_item raises at its initial read and the
outer handler makes both add_memory calls complete no-ops: the fact then
occurs zero times in get_memory, not once. -/
theorem addMemory_corrupt_counterexample :
    (getMemory (addMemory (addMemory (MemState.mk [] MemFile.corrupt) "Mids likes tea")
        "Mids likes tea")).count "Mids likes tea" ≠ 1 := by
  decide

/-- C2 amended: from any memory state whose backing file is absent or
consistent with the in-memory record, and in which the fact occurs at most
once, calling add_memory twice yields exactly one occurrence of the fact
in get_memory; the second call is a no-op. -/
theorem addMemory_idempotent (s : MemState) (f : String)
    (hfile : s.file = MemFile.ok s.mem ∨ s.file = MemFile.absent)
    (hcount : s.mem.count f ≤ 1) :
    (getMemory (addMemory (addMemory s f) f)).count f = 1
      ∧ addMemory (addMemory s f) f = addMemory s f := by
  obtain ⟨mem, file⟩ := s
  simp only at hfile hcount
  rcases hfile with hf | hf <;> subst hf
  · by_cases hm : f ∈ mem
    · simp only [addMemory, appendMemoryItem, if_pos hm, getMemory]
      exact ⟨by have := List.count_pos_iff.mpr hm; omega, trivial⟩
    · have hmem2 : f ∈ mem ++ [f] := by simp
      simp only [addMemory, appendMemoryItem, if_neg hm, if_pos hmem2, getMemory]
      refine ⟨?_, trivial⟩
      rw [List.count_append, List.count_eq_zero_of_not_mem hm]
      simp
  · by_cases hm : f ∈ mem
    · simp only [addMemory, appendMemoryItem, if_pos hm, getMemory]
      exact ⟨by have := List.count_pos_iff.mpr hm; omega, trivial⟩
    · have hmem2 : f ∈ mem ++ [f] := by simp
      simp only [addMemory, appendMemoryItem, if_neg hm, if_pos hmem2, getMemory]
      refine ⟨?_, trivial⟩
      rw [List.count_append, List.count_eq_zero_of_not_mem hm]
      simp

/-- C2 witness: a concrete consistent one-fact state in which a new fact
is inserted once and the second insert is a no-op. -/
theorem addMemory_idempotent_witness :
    (getMemory (addMemory (addMemory
          (MemState.mk ["User U1: Alice"] (MemFile.ok ["User U1: Alice"]))
          "Mids likes green tea") "Mids likes green tea")).count "Mids likes green tea" = 1
      ∧ addMemory (addMemory
            (MemState.mk ["User U1: Alice"] (MemFile.ok ["User U1: Alice"]))
            "Mids likes green tea") "Mids likes green tea"
          = addMemory (MemState.mk ["User U1: Alice"] (MemFile.ok ["User U1: Alice"]))
              "Mids likes green tea" :=
  addMemory_idempotent (MemState.mk ["User U1: Alice"] (MemFile.ok ["User U1: Alice"]))
    "Mids likes green tea" (Or.inl rfl) (by decide)

/-- C9: get_context_for_user never consults its user parameter: any two
user identifiers, including the absent one, produce the identical context
text on every memory state. -/
theorem getContext_user_independent (s : MemState) (u1 u2 : Option String) :
    getContextForUser s u1 = getContextForUser s u2 := rfl

/-- C4 counterexample: the claim covers arbitrary fact strings, but a
single stored fact made of 20 newline characters already makes the
returned context text span 21 lines. -/
theorem getContext_lines_counterexample :
    20 < countLines (getContextForUser (MemState.mk [newlineFact] (MemFile.ok [newlineFact])) none) := by
  decide

theorem pyJoin_count_newline (l : List String) :
    (pyJoin "\n" l).data.count '\n'
      = (l.map (fun f => f.data.count '\n')).sum + (l.length - 1) := by
  induction l with
  | nil => simp [pyJoin]
  | cons x rest ih =>
    cases rest with
    | nil => simp [pyJoin]
    | cons y r =>
      show ((x ++ "\n" ++ pyJoin "\n" (y :: r)).data.count '\n') = _
      rw [String.data_append, String.data_append, List.count_append, List.count_append, ih]
      simp only [List.map_cons, List.sum_cons, List.length_cons]
      have hn : ("\n".data.count '\n') = 1 := by decide
      rw [hn]
      omega

/-- C4 amended: the context text is the newline-join of at most the first
20 stored facts in insertion order; whenever each stored fact is itself
newline-free the text has at most 20 lines (a fact embedding newlines
contributes additional lines). -/
theorem getContext_first20 (s : MemState) (u : Option String) :
    getContextForUser s u = pyJoin "\n" (s.mem.take 20)
      ∧ ((∀ f ∈ s.mem, f.data.count '\n' = 0) → countLines (getContextForUser s u) ≤ 20) := by
  have hctx : getContextForUser s u = pyJoin "\n" (s.mem.take 20) := by
    simp only [getContextForUser, getMemory]
    by_cases hl : s.mem.length > 20
    · simp [hl]
    · rw [if_neg hl, List.take_of_length_le (by omega)]
  refine ⟨hctx, ?_⟩
  intro hnl
  rw [countLines, hctx, pyJoin_count_newline]
  have hz : ∀ f ∈ s.mem.take 20, f.data.count '\n' = 0 := fun f hf =>
    hnl f (List.mem_of_mem_take hf)
  have hsum : ((s.mem.take 20).map (fun f => f.data.count '\n')).sum = 0 := by
    apply List.sum_eq_zero
    intro x hx
    rcases List.mem_map.mp hx with ⟨f, hf, hfx⟩
    rw [← hfx]
    exact hz f hf
  have hlen : (s.mem.take 20).length ≤ 20 := by
    simp [List.length_take]
  omega

/-- C4 witness: a concrete two-fact state where the context is the join of
the facts and spans at most 20 lines. -/
theorem getContext_first20_witness :
    getContextForUser (MemState.mk ["fact a", "fact b"] (MemFile.ok ["fact a", "fact b"])) none
        = pyJoin "\n" ((["fact a", "fact b"] : List String).take 20)
      ∧ countLines (getContextForUser
          (MemState.mk ["fact a", "fact b"] (MemFile.ok ["fact a", "fact b"])) none) ≤ 20 :=
  ⟨(getContext_first20 (MemState.mk ["fact a", "fact b"] (MemFile.ok ["fact a", "fact b"])) none).1,
   (getContext_first20 (MemState.mk ["fact a", "fact b"] (MemFile.ok ["fact a", "fact b"])) none).2
     (by decide)⟩

/-- C5: in a channel-scoped conversation every stored user turn that
carries a truthy sender name is prefixed with that name and a colon-space,
and so is the current inbound message; a non-channel conversation never
adds a name prefix to any stored turn or to the current message. -/
theorem channel_name_prefixing :
    (∀ (e : Turn) (n : String), e.user_name = some n → n ≠ "" → e.role = "user" →
        formatEntryContent true e = n ++ ": " ++ e.content)
      ∧ (∀ history : List Turn,
          formattedHistory false history
            = (takeLast 20 history).map (fun e => (formatRole e.role, e.content)))
      ∧ (∀ (n q : String), n ≠ "" → currentQuery true (some n) q = n ++ ": " ++ q)
      ∧ (∀ (un : Option String) (q : String), currentQuery false un q = q) := by
  refine ⟨?_, ?_, ?_, ?_⟩
  · intro e n hn hne hr
    simp [formatEntryContent, truthyOpt, hn, hne, hr]
  · intro history
    simp [formattedHistory, formatEntryContent]
  · intro n q hne
    simp [currentQuery, truthyOpt, hne]
  · intro un q
    simp [currentQuery]

/-- C5 witness: concrete channel and non-channel formattings. -/
theorem channel_name_prefixing_witness :
    formatEntryContent true (Turn.mk "user" "hello" "t" (some "U1") (some "Alice") (some "C1"))
        = "Alice: hello"
      ∧ currentQuery true (some "Bob") "hi" = "Bob: hi"
      ∧ currentQuery false (some "Bob") "hi" = "hi" :=
  ⟨channel_name_prefixing.1 (Turn.mk "user" "hello" "t" (some "U1") (some "Alice") (some "C1"))
      "Alice" rfl (by decide) rfl,
   channel_name_prefixing.2.2.1 "Bob" "hi" (by decide),
   channel_name_prefixing.2.2.2 (some "Bob") "hi"⟩

/-- C7 counterexample: a response that contains a tool call named
get_weather next to a search_web call takes the search execution branch
instead of returning the fixed fallback string — the claim fails for such
mixed responses. -/
theorem unsupported_tool_counterexample :
    processFunctionCalls "q" mixedToolResponse = ProcResult.searchWeb "seoul weather"
      ∧ processFunctionCalls "q" mixedToolResponse ≠ ProcResult.unsupportedToolFallback := by
  decide

theorem partsLoop_no_search (oq : String) (l : List RespPart) (acc : String) (hasFC : Bool)
    (hns : ∀ p ∈ l, isSearchCallPart p = false)
    (hfc : hasFC = true ∨ l.any isFunctionCallPart = true) :
    partsLoop oq l acc hasFC = ProcResult.unsupportedToolFallback := by
  induction l generalizing acc hasFC with
  | nil =>
    rcases hfc with hfc | hfc
    · simp [partsLoop, hfc]
    · simp at hfc
  | cons p rest ih =>
    cases p with
    | text s =>
      have hfc2 : hasFC = true ∨ rest.any isFunctionCallPart = true := by
        rcases hfc with hfc | hfc
        · exact Or.inl hfc
        · right
          simpa [isFunctionCallPart] using hfc
      exact ih (acc ++ s) hasFC (fun p hp => hns p (List.mem_cons_of_mem _ hp)) hfc2
    | functionCall fc =>
      have hname : (fc.name == "search_web") = false := by
        have := hns (RespPart.functionCall fc) (List.mem_cons_self _ _)
        simpa [isSearchCallPart] using this
      show (if fc.name == "search_web" then _ else partsLoop oq rest acc true) = _
      rw [hname]
      simp only [Bool.false_eq_true, if_false]
      exact ih acc true (fun p hp => hns p (List.mem_cons_of_mem _ hp)) (Or.inl rfl)

/-- C7 amended: for every model response that contains at least one
tool-call request and in which no tool-call request is named search_web,
_process_function_calls returns the fixed fallback string — the total
embedding raises nothing and the search branch is never entered. -/
theorem unsupported_tool_fallback (oq : String) (r : Response)
    (hfc : (partsOf r).any isFunctionCallPart = true)
    (hns : ∀ p ∈ partsOf r, isSearchCallPart p = false) :
    processFunctionCalls oq r = ProcResult.unsupportedToolFallback
      ∧ renderResult (processFunctionCalls oq r) = some unsupportedToolText := by
  have hmain : processFunctionCalls oq r = ProcResult.unsupportedToolFallback := by
    match hr : r.candidates with
    | [] =>
      simp only [partsOf, hr] at hfc
      simp at hfc
    | c :: cs =>
      simp only [partsOf, hr] at hfc hns
      have hne : c.parts.isEmpty = false := by
        cases hp : c.parts with
        | nil => rw [hp] at hfc; simp at hfc
        | cons a as => simp [hp]
      have htext : responseText r = none := by
        rw [responseText, hr]
        simp [hne, hfc]
      rw [processFunctionCalls, htext, hr]
      simp only [hne, Bool.false_eq_true, if_false]
      exact partsLoop_no_search oq c.parts "" false hns (Or.inr hfc)
  exact ⟨hmain, by rw [hmain]; rfl⟩

/-- C7 witness: a response whose only part is a get_weather call yields
the fixed fallback text. -/
theorem unsupported_tool_fallback_witness :
    processFunctionCalls "orig"
        (Response.mk [Candidate.mk [RespPart.functionCall (FunctionCall.mk "get_weather" none)]])
        = ProcResult.unsupportedToolFallback
      ∧ renderResult (processFunctionCalls "orig"
          (Response.mk [Candidate.mk [RespPart.functionCall (FunctionCall.mk "get_weather" none)]]))
        = some unsupportedToolText :=
  unsupported_tool_fallback "orig"
    (Response.mk [Candidate.mk [RespPart.functionCall (FunctionCall.mk "get_weather" none)]])
    (by decide) (by decide)

/-- C10: extract_important_info returns the empty list without invoking
the model for every non-user message and for every message whose content
strips to fewer than 10 characters; consequently summarize_session adds no
model-extracted facts (and never calls the model) when the joined
transcript strips to fewer than 10 characters — only the user-name facts
pass touches the memory state. -/
theorem extract_skips_short_or_nonuser (modelAvailable : Bool)
    (oracle : String → Option String) :
    (∀ m : Message, m.role ≠ some "user" →
        extractImportantInfo modelAvailable oracle m = ([], false))
      ∧ (∀ m : Message, (pyStrip (m.content.getD "")).length < 10 →
          extractImportantInfo modelAvailable oracle m = ([], false))
      ∧ (∀ (st : MemState) (history : List Turn),
          (pyStrip (historyText history)).length < 10 →
            (summarizeSession modelAvailable oracle st history).memories = []
              ∧ (summarizeSession modelAvailable oracle st history).modelInvoked = false
              ∧ (summarizeSession modelAvailable oracle st history).state
                  = userFactsPass st [] history) := by
  have h1 : ∀ m : Message, m.role ≠ some "user" →
      extractImportantInfo modelAvailable oracle m = ([], false) := by
    intro m hm
    have hrole : (m.role == some "user") = false := by simpa using hm
    simp [extractImportantInfo, hrole]
  have h2 : ∀ m : Message, (pyStrip (m.content.getD "")).length < 10 →
      extractImportantInfo modelAvailable oracle m = ([], false) := by
    intro m hlt
    by_cases hc : (!modelAvailable || !(m.role == some "user")) = true
    · simp [extractImportantInfo, hc]
    · have hc2 : (!modelAvailable || !(m.role == some "user")) = false := by
        simpa using hc
      simp [extractImportantInfo, hc2, hlt]
  have h3 : ∀ (st : MemState) (history : List Turn),
      (pyStrip (historyText history)).length < 10 →
        (summarizeSession modelAvailable oracle st history).memories = []
          ∧ (summarizeSession modelAvailable oracle st history).modelInvoked = false
          ∧ (summarizeSession modelAvailable oracle st history).state
              = userFactsPass st [] history := by
    intro st history hlt
    by_cases he : (pyStrip (historyText history) == "") = true
    · have hcond : (!(pyStrip (historyText history) == "")) = false := by simp [he]
      simp [summarizeSession, hcond]
    · have hne : (!(pyStrip (historyText history) == "")) = true := by
        simp only [Bool.not_eq_true] at he
        simp [he]
      have hres := h2 (Message.mk (some "user") (some (historyText history)) (some "History"))
        (by simpa using hlt)
      simp [summarizeSession, hne, hres]
  exact ⟨h1, h2, h3⟩

/-- C10 witness: a bot message, a short user message, and an empty
transcript all skip extraction. -/
theorem extract_skips_short_or_nonuser_witness :
    extractImportantInfo true (fun _ => none)
        (Message.mk (some "bot") (some "a sufficiently long bot message") none) = ([], false)
      ∧ extractImportantInfo true (fun _ => none)
          (Message.mk (some "user") (some "  short  ") none) = ([], false)
      ∧ (summarizeSession true (fun _ => none) (MemState.mk [] MemFile.absent) []).memories = [] :=
  ⟨(extract_skips_short_or_nonuser true (fun _ => none)).1
      (Message.mk (some "bot") (some "a sufficiently long bot message") none) (by decide),
   (extract_skips_short_or_nonuser true (fun _ => none)).2.1
      (Message.mk (some "user") (some "  short  ") none) (by decide),
   ((extract_skips_short_or_nonuser true (fun _ => none)).2.2
      (MemState.mk [] MemFile.absent) [] (by decide)).1⟩
